import Mathlib

/-!
Verification development for the DexesScanner arbitrage valuation and
pair-discovery engine.

The Python source is shallowly embedded: Python ints become `ℕ`, Python
floats become `ℚ` (the algorithms of interest only add, subtract, multiply,
divide and compare, so exact rational arithmetic mirrors the intent of the
float code), Python `//` on non-negative ints becomes `ℕ` division, and a
function whose `try/except` can return early or whose result can be absent
returns an `Option`.
-/

namespace DexesScanner

/-- One ether in wei; `Web3.from_wei(x, 'ether')` divides by this. -/
def weiPerEth : ℚ := 10 ^ 18

/-- `Web3.from_wei(x, 'ether')` for a non-negative integer wei amount. -/
def from_wei (x : ℕ) : ℚ := (x : ℚ) / weiPerEth

/-- `Web3.to_wei(x, 'ether')` for a non-negative rational ether amount:
multiply by `10^18` and truncate to an integer. -/
def to_wei (x : ℚ) : ℕ := (x * weiPerEth).floor.toNat

/-- The per-venue reserve/price data produced by `PriceFeed.get_reserves` /
`PriceFeed._get_dex_price` (`Price_feeds.py`): the fields of the returned
dict that the arbitrage detector reads.  `price` is the stored
`reserve_b / reserve_a` quotient, `liquidity_eth` the stored liquidity
estimate (both Python floats, embedded as `ℚ`). -/
structure ReservesData where
  reserve_a : ℕ
  reserve_b : ℕ
  price : ℚ
  liquidity_eth : ℚ
deriving DecidableEq, Repr

/-- The constant-product-with-fee output amount computed inside
`PriceFeed.calculate_price_impact` (`Price_feeds.py` lines 315-319):

    amount_in_with_fee = trade_amount * 997
    numerator = amount_in_with_fee * reserve_out
    denominator = (reserve_in * 1000) + amount_in_with_fee
    amount_out = numerator // denominator

All quantities are Python ints, so `//` is `ℕ` floor division. -/
def amount_out_with_fee (reserve_in reserve_out trade_amount : ℕ) : ℕ :=
  (trade_amount * 997 * reserve_out) / (reserve_in * 1000 + trade_amount * 997)

/-- `PriceFeed.calculate_price_impact` (`Price_feeds.py` lines 303-330) on
the two reserves it selects (`is_token_a` is only ever used with its
default `True`, so `reserve_in = reserve_a`, `reserve_out = reserve_b`).

The Python body runs under `try/except` returning `1.0` on error; with
non-negative integer reserves the only raisable error is `ZeroDivisionError`,
which occurs exactly when `reserve_in = 0` (the `denominator` when also
`trade_amount = 0`, otherwise the `reserve_out / reserve_in` division) or
`reserve_out = 0` (then `original_price = 0` and the final division by it),
hence the guard below. -/
def calculate_price_impact_reserves (reserve_in reserve_out trade_amount : ℕ) : ℚ :=
  if reserve_in = 0 ∨ reserve_out = 0 then 1
  else
    let amount_out := amount_out_with_fee reserve_in reserve_out trade_amount
    let original_price : ℚ := (reserve_out : ℚ) / (reserve_in : ℚ)
    let new_price : ℚ := ((reserve_out : ℚ) - (amount_out : ℚ)) / ((reserve_in : ℚ) + (trade_amount : ℚ))
    |new_price - original_price| / original_price

/-- `PriceFeed.calculate_price_impact` as called by the arbitrage detector:
on a reserves dict, with the default trade direction. -/
def calculate_price_impact (reserves : ReservesData) (trade_amount : ℕ) : ℚ :=
  calculate_price_impact_reserves reserves.reserve_a reserves.reserve_b trade_amount

/-- The intermediate `amount_out` value of `calculate_price_impact`,
`none` when the floor division itself raises `ZeroDivisionError`
(denominator `reserve_in * 1000 + trade_amount * 997 = 0`) so that the
value is never computed.  This intermediate is not part of the function's
return value (the function returns only the impact). -/
def calculate_price_impact_internal_out (reserve_in reserve_out trade_amount : ℕ) : Option ℕ :=
  if reserve_in * 1000 + trade_amount * 997 = 0 then none
  else some (amount_out_with_fee reserve_in reserve_out trade_amount)

/-- `ArbitrageDetector._estimate_gas_cost` (`arbitrage_detector.py` lines
393-407): a fixed 300000 gas-unit estimate times the (cached, capped)
gas price, converted from wei to ETH.  The trade amount is not an input. -/
def estimate_gas_cost (gas_price : ℕ) : ℚ :=
  from_wei (gas_price * 300000)

/-- `ArbitrageDetector._calculate_confidence_score` (`arbitrage_detector.py`
lines 321-342).  The body cannot raise, so the `except` branch returning
`0.0` is dead code and is not modelled. -/
def calculate_confidence_score (price_impact_buy price_impact_sell
    liquidity_buy liquidity_sell profit_margin : ℚ) : ℚ :=
  let impact_score := max 0 (1 - (price_impact_buy + price_impact_sell) / (1 / 10))
  let liquidity_score := min 1 (min liquidity_buy liquidity_sell / 50)
  let profit_score := min 1 (profit_margin / 5)
  let confidence := impact_score * (4 / 10) + liquidity_score * (3 / 10) + profit_score * (3 / 10)
  max 0 (min 1 confidence)

/-- The dict returned by `ArbitrageDetector._analyze_trade_amount`
(`arbitrage_detector.py` lines 306-315).  The nested `liquidity_check`
dict is flattened to its three entries. -/
structure AnalysisResult where
  profit_eth : ℚ
  net_profit_eth : ℚ
  gas_cost_eth : ℚ
  profit_margin_pct : ℚ
  confidence_score : ℚ
  price_impact_buy : ℚ
  price_impact_sell : ℚ
  buy_dex_liquidity_eth : ℚ
  sell_dex_liquidity_eth : ℚ
  sufficient_liquidity : Bool
deriving DecidableEq, Repr

/-- `ArbitrageDetector._analyze_trade_amount` (`arbitrage_detector.py` lines
258-319).  The two early `return None` paths are the 5% impact gate and the
non-positive net profit gate; the `except` branch cannot trigger after
those (`profit_margin_pct` divides by `trade_amount_eth`, which is nonzero
whenever `net_profit_eth > 0`). -/
def analyze_trade_amount (amount_wei : ℕ) (buy_reserves sell_reserves : ReservesData)
    (gas_price : ℕ) : Option AnalysisResult :=
  let price_impact_buy := calculate_price_impact buy_reserves amount_wei
  let price_impact_sell := calculate_price_impact sell_reserves amount_wei
  if 1 / 20 < price_impact_buy ∨ 1 / 20 < price_impact_sell then none
  else
    let gas_cost_eth := estimate_gas_cost gas_price
    let price_diff := |buy_reserves.price - sell_reserves.price|
    let gross_profit_eth := from_wei amount_wei * price_diff
    let impact_loss := gross_profit_eth * (price_impact_buy + price_impact_sell)
    let adjusted_profit_eth := gross_profit_eth - impact_loss
    let net_profit_eth := adjusted_profit_eth - gas_cost_eth
    if net_profit_eth ≤ 0 then none
    else
      let trade_amount_eth := from_wei amount_wei
      let profit_margin_pct := net_profit_eth / trade_amount_eth * 100
      some {
        profit_eth := adjusted_profit_eth
        net_profit_eth := net_profit_eth
        gas_cost_eth := gas_cost_eth
        profit_margin_pct := profit_margin_pct
        confidence_score := calculate_confidence_score price_impact_buy price_impact_sell
          buy_reserves.liquidity_eth sell_reserves.liquidity_eth profit_margin_pct
        price_impact_buy := price_impact_buy
        price_impact_sell := price_impact_sell
        buy_dex_liquidity_eth := buy_reserves.liquidity_eth
        sell_dex_liquidity_eth := sell_reserves.liquidity_eth
        sufficient_liquidity :=
          decide (trade_amount_eth * 2 < min buy_reserves.liquidity_eth sell_reserves.liquidity_eth) }

/-- The net profit `_analyze_trade_amount` computes for a candidate at line
282 (`adjusted_profit_eth - gas_cost_eth`), as a standalone value so that
"a candidate with non-positive net profit" can be spoken about even when
the function returns `None`. -/
def candidate_net_profit (amount_wei : ℕ) (buy_reserves sell_reserves : ReservesData)
    (gas_price : ℕ) : ℚ :=
  let gross := from_wei amount_wei * |buy_reserves.price - sell_reserves.price|
  gross - gross * (calculate_price_impact buy_reserves amount_wei +
    calculate_price_impact sell_reserves amount_wei) - estimate_gas_cost gas_price

/-- The candidate-selection loop of `ArbitrageDetector._analyze_pair_opportunity`
(`arbitrage_detector.py` lines 189-223): iterate over the trade amounts,
keep the analysis whose `profit_eth` strictly exceeds the best seen so far
(`best_profit` starts at `0`).  The loop is modelled on the `(amount,
analysis)` pair that the kept `best_opportunity` dict records. -/
def select_best_analysis (buy_reserves sell_reserves : ReservesData) (gas_price : ℕ) :
    List ℕ → ℚ → Option (ℕ × AnalysisResult) → Option (ℕ × AnalysisResult)
  | [], _, best => best
  | amount :: rest, best_profit, best =>
    match analyze_trade_amount amount buy_reserves sell_reserves gas_price with
    | some analysis =>
      if best_profit < analysis.profit_eth then
        select_best_analysis buy_reserves sell_reserves gas_price rest
          analysis.profit_eth (some (amount, analysis))
      else
        select_best_analysis buy_reserves sell_reserves gas_price rest best_profit best
    | none => select_best_analysis buy_reserves sell_reserves gas_price rest best_profit best

/-- `ArbitrageDetector._calculate_trade_amounts` (`arbitrage_detector.py`
lines 230-256), with the setting `RISK_SETTINGS['max_trade_amount_eth']`
as the `max_trade_amount_eth` parameter: a ladder of fractions of the
smaller venue liquidity, filtered at a 0.001 ETH floor, converted to wei,
truncated to the first three. -/
def calculate_trade_amounts (buy_reserves sell_reserves : ReservesData)
    (max_trade_amount_eth : ℚ) : List ℕ :=
  let min_liquidity_eth := min buy_reserves.liquidity_eth sell_reserves.liquidity_eth
  let max_trade_eth := min (min_liquidity_eth * (1 / 10)) max_trade_amount_eth
  let amounts_eth := [max_trade_eth * (1 / 10), max_trade_eth * (25 / 100),
    max_trade_eth * (5 / 10), max_trade_eth]
  ((amounts_eth.filter (fun a => 1 / 1000 ≤ a)).map to_wei).take 3

/-- The opportunity dict built by `ArbitrageDetector._analyze_pair_opportunity`
(`arbitrage_detector.py` lines 200-222); I/O-only fields (token addresses,
timestamp, priority string) are not modelled. -/
structure Opportunity where
  pair : String
  buy_dex : String
  sell_dex : String
  buy_price : ℚ
  sell_price : ℚ
  price_difference_pct : ℚ
  trade_amount_wei : ℕ
  estimated_profit_eth : ℚ
  gas_cost_eth : ℚ
  net_profit_eth : ℚ
  profit_margin_pct : ℚ
  confidence_score : ℚ
  price_impact_buy : ℚ
  price_impact_sell : ℚ
  sufficient_liquidity : Bool
deriving DecidableEq, Repr

/-- `ArbitrageDetector._analyze_pair_opportunity` (`arbitrage_detector.py`
lines 145-228) for one pair: the two venue quotes (absent quotes modelled
as `none`), the 0.1% price-difference gate, buy/sell direction choice,
the candidate ladder, and the selection loop.  The surrounding `try/except`
returns `None` on any error; with the embedded data the only raisable error
is the `ZeroDivisionError` of `price_diff / min(...)` when the lower price
is zero, hence that guard. -/
def analyze_pair_opportunity (pair_name : String)
    (uniswap sushiswap : Option ReservesData)
    (max_trade_amount_eth : ℚ) (gas_price : ℕ) : Option Opportunity :=
  match uniswap, sushiswap with
  | some uni, some sushi =>
    if min uni.price sushi.price = 0 then none
    else
      let price_diff := |uni.price - sushi.price|
      let price_diff_pct := price_diff / min uni.price sushi.price * 100
      if price_diff_pct < 1 / 10 then none
      else
        let dir := if sushi.price < uni.price then
            ("sushiswap", "uniswap", sushi.price, uni.price, sushi, uni)
          else
            ("uniswap", "sushiswap", uni.price, sushi.price, uni, sushi)
        let buy_reserves := dir.2.2.2.2.1
        let sell_reserves := dir.2.2.2.2.2
        let trade_amounts := calculate_trade_amounts buy_reserves sell_reserves max_trade_amount_eth
        match select_best_analysis buy_reserves sell_reserves gas_price trade_amounts 0 none with
        | some (amount_wei, analysis) =>
          some {
            pair := pair_name
            buy_dex := dir.1
            sell_dex := dir.2.1
            buy_price := dir.2.2.1
            sell_price := dir.2.2.2.1
            price_difference_pct := price_diff_pct
            trade_amount_wei := amount_wei
            estimated_profit_eth := analysis.profit_eth
            gas_cost_eth := analysis.gas_cost_eth
            net_profit_eth := analysis.net_profit_eth
            profit_margin_pct := analysis.profit_margin_pct
            confidence_score := analysis.confidence_score
            price_impact_buy := analysis.price_impact_buy
            price_impact_sell := analysis.price_impact_sell
            sufficient_liquidity := analysis.sufficient_liquidity }
        | none => none
  | _, _ => none

/-- Stable insertion of one opportunity into a list kept in descending
`net_profit_eth` order: walk past strictly more profitable entries, stop
at the first entry that is not strictly more profitable.  Ties are placed
before existing equal entries seen from the insertion side, which combined
with `sort_by_net_desc` below reproduces the stable descending order of
Python's `list.sort(key=..., reverse=True)`. -/
def insert_by_net_desc (x : Opportunity) : List Opportunity → List Opportunity
  | [] => [x]
  | y :: ys =>
    if x.net_profit_eth < y.net_profit_eth then y :: insert_by_net_desc x ys
    else x :: y :: ys

/-- Stable sort by `net_profit_eth` descending, modelling
`profitable.sort(key=lambda x: x['net_profit_eth'], reverse=True)` in
`_filter_profitable_opportunities` (Python `list.sort` is stable). -/
def sort_by_net_desc : List Opportunity → List Opportunity
  | [] => []
  | x :: xs => insert_by_net_desc x (sort_by_net_desc xs)

/-- The filter predicate of `ArbitrageDetector._filter_profitable_opportunities`
(`arbitrage_detector.py` lines 351-358): minimum net profit, minimum
confidence, and the recorded `sufficient_liquidity` flag. -/
def passes_opportunity_filters (min_profit_eth confidence_threshold : ℚ)
    (o : Opportunity) : Bool :=
  decide (min_profit_eth ≤ o.net_profit_eth) &&
    decide (confidence_threshold ≤ o.confidence_score) && o.sufficient_liquidity

/-- `ArbitrageDetector._filter_profitable_opportunities`
(`arbitrage_detector.py` lines 344-363), with the settings
`MIN_PROFIT_ETH` and `confidence_threshold` as parameters: filter, then
stable sort by net profit descending.  (The early return on an empty input
produces the same empty list as filtering and sorting it.) -/
def filter_profitable_opportunities (min_profit_eth confidence_threshold : ℚ)
    (opportunities : List Opportunity) : List Opportunity :=
  sort_by_net_desc
    (opportunities.filter (passes_opportunity_filters min_profit_eth confidence_threshold))

/-!  Pair discovery (`pair_discovery.py`). -/

/-- An unordered token pair candidate, as the `(symbol, symbol)` tuples of
`PairDiscovery.generate_potential_pairs`. -/
abbrev TokenPair := String × String

/-- The fixed stablecoin list of `generate_potential_pairs`
(`pair_discovery.py` line 117). -/
def stablecoins : List String := ["USDC", "USDT", "DAI", "FRAX"]

/-- `itertools.combinations(l, 2)`: all `(l[i], l[j])` with `i < j`, in
lexicographic index order. -/
def combinations2 {α : Type} : List α → List (α × α)
  | [] => []
  | x :: xs => xs.map (fun y => (x, y)) ++ combinations2 xs

/-- The `PAIR_RULES` configuration entries read by
`generate_potential_pairs`.  The settings module defining their values is
not part of the analysed sources, so they are inputs here. -/
structure PairRules where
  always_include_weth : Bool
  stablecoin_pairs : Bool
  major_token_pairs : Bool
  max_pairs_per_token : ℕ

/-- The `major_token_pairs` branch of `generate_potential_pairs`
(`pair_discovery.py` lines 122-125): append each candidate combination
whose components differ and which is, in either order, not already in the
accumulated list (the list grows during the loop, so each check sees the
earlier appends). -/
def add_major_pairs (pairs : List TokenPair) : List TokenPair → List TokenPair
  | [] => pairs
  | (token1, token2) :: rest =>
    if token1 ≠ token2 ∧ (token1, token2) ∉ pairs ∧ (token2, token1) ∉ pairs then
      add_major_pairs (pairs ++ [(token1, token2)]) rest
    else
      add_major_pairs pairs rest

/-- One iteration of the priority loop of `generate_potential_pairs`
(`pair_discovery.py` lines 106-125) for a tier's token list: WETH pairs,
stablecoin pairs within the tier, then guarded major-token combinations. -/
def generate_tier_pairs (rules : PairRules) (weth_in_universe : Bool)
    (priority_tokens : List String) (pairs : List TokenPair) : List TokenPair :=
  let pairs := if rules.always_include_weth ∧ weth_in_universe then
      pairs ++ (priority_tokens.filter (· ≠ "WETH")).map (fun t => ("WETH", t))
    else pairs
  let pairs := if rules.stablecoin_pairs then
      pairs ++ combinations2 (stablecoins.filter (· ∈ priority_tokens))
    else pairs
  if rules.major_token_pairs then add_major_pairs pairs (combinations2 priority_tokens)
  else pairs

/-- The second phase of `generate_potential_pairs` (`pair_discovery.py`
lines 127-144): walk the generated list keeping a per-token pair count,
and keep a pair only when both its tokens are still under
`max_pairs_per_token`; each kept pair increments the count of each of its
tokens (twice the same count when the tokens coincide, as Python's
`for token in [token1, token2]` does). -/
def apply_pair_limits (cap : ℕ) : List TokenPair → (String → ℕ) → List TokenPair
  | [], _ => []
  | (token1, token2) :: rest, count =>
    if count token1 < cap ∧ count token2 < cap then
      (token1, token2) :: apply_pair_limits cap rest
        (fun t => count t + (if t = token1 then 1 else 0) + (if t = token2 then 1 else 0))
    else
      apply_pair_limits cap rest count

/-- `PairDiscovery.generate_potential_pairs` (`pair_discovery.py` lines
100-144).  The token universe and the per-tier token lists come from the
settings module (not among the analysed sources) and are parameters; the
priority loop runs over the tiers `high`, `medium`, `low` in that order. -/
def generate_potential_pairs (rules : PairRules) (token_universe : List String)
    (high_tokens medium_tokens low_tokens : List String) : List TokenPair :=
  let weth_ok := "WETH" ∈ token_universe
  let pairs := generate_tier_pairs rules weth_ok low_tokens
    (generate_tier_pairs rules weth_ok medium_tokens
      (generate_tier_pairs rules weth_ok high_tokens []))
  apply_pair_limits rules.max_pairs_per_token pairs (fun _ => 0)

/-- Two candidate pairs cover the same unordered token pair. -/
def same_unordered (p q : TokenPair) : Prop :=
  (q.1 = p.1 ∧ q.2 = p.2) ∨ (q.1 = p.2 ∧ q.2 = p.1)

instance : DecidablePred fun pq : TokenPair × TokenPair => same_unordered pq.1 pq.2 :=
  fun _ => by unfold same_unordered; infer_instance

/-- Modelled from the spec: the spec's PriceImpactModel output formula
(§4.1), `amount_out = amount_in*(1-fee_rate)*reserve_out /
(reserve_in + amount_in*(1-fee_rate))` with `fee_rate = 0.003`, in exact
arithmetic.  Used only to state the two-leg simulation the spec describes
(§4.3), which has no counterpart in the analysed sources. -/
def spec_amount_out (reserve_in reserve_out amount_in : ℚ) : ℚ :=
  amount_in * (1 - 3 / 1000) * reserve_out / (reserve_in + amount_in * (1 - 3 / 1000))

/-- Modelled from the spec: the two-leg gross profit of §4.3 — leg 1 feeds
the trade amount into the price-impact model against the buy venue's
reserves, leg 2 feeds the leg-1 output into the model against the sell
venue's reserves with direction reversed, and the gross profit is the
leg-2 output minus the trade amount (converted to ETH). -/
def spec_two_leg_gross_profit (amount_wei : ℕ) (buy_reserves sell_reserves : ReservesData) : ℚ :=
  let leg1_out := spec_amount_out (buy_reserves.reserve_a : ℚ) (buy_reserves.reserve_b : ℚ)
    (amount_wei : ℚ)
  let leg2_out := spec_amount_out (sell_reserves.reserve_b : ℚ) (sell_reserves.reserve_a : ℚ)
    leg1_out
  (leg2_out - (amount_wei : ℚ)) / weiPerEth

/-!  Properties of the constant-product price-impact computation. -/

lemma amount_out_denom_pos {reserve_in trade_amount : ℕ} (hin : 0 < reserve_in) :
    0 < reserve_in * 1000 + trade_amount * 997 := by
  have : 0 < reserve_in * 1000 := by positivity
  omega

lemma amount_out_lt {reserve_in reserve_out trade_amount : ℕ}
    (hin : 0 < reserve_in) (hout : 0 < reserve_out) :
    amount_out_with_fee reserve_in reserve_out trade_amount < reserve_out := by
  unfold amount_out_with_fee
  rw [Nat.div_lt_iff_lt_mul (amount_out_denom_pos hin)]
  have h : 0 < reserve_out * (reserve_in * 1000) := by positivity
  nlinarith [h]

lemma amount_out_mono {reserve_in reserve_out a₁ a₂ : ℕ}
    (hin : 0 < reserve_in) (h : a₁ ≤ a₂) :
    amount_out_with_fee reserve_in reserve_out a₁ ≤ amount_out_with_fee reserve_in reserve_out a₂ := by
  unfold amount_out_with_fee
  rw [Nat.le_div_iff_mul_le (amount_out_denom_pos hin)]
  have h₁ : a₁ * 997 * reserve_out / (reserve_in * 1000 + a₁ * 997) *
      (reserve_in * 1000 + a₁ * 997) ≤ a₁ * 997 * reserve_out :=
    Nat.div_mul_le_self _ _
  have h₂ : a₁ * 997 * reserve_out * (reserve_in * 1000 + a₂ * 997) ≤
      a₂ * 997 * reserve_out * (reserve_in * 1000 + a₁ * 997) := by
    nlinarith [Nat.mul_le_mul_right (reserve_in * 1000 * 997 * reserve_out) h]
  have h₃ := Nat.mul_le_mul_right (reserve_in * 1000 + a₂ * 997) h₁
  refine Nat.le_of_mul_le_mul_right ?_ (@amount_out_denom_pos reserve_in a₁ hin)
  calc a₁ * 997 * reserve_out / (reserve_in * 1000 + a₁ * 997) *
        (reserve_in * 1000 + a₂ * 997) * (reserve_in * 1000 + a₁ * 997)
      = a₁ * 997 * reserve_out / (reserve_in * 1000 + a₁ * 997) *
        (reserve_in * 1000 + a₁ * 997) * (reserve_in * 1000 + a₂ * 997) := by ring
    _ ≤ a₁ * 997 * reserve_out * (reserve_in * 1000 + a₂ * 997) := h₃
    _ ≤ a₂ * 997 * reserve_out * (reserve_in * 1000 + a₁ * 997) := h₂

/-- On positive reserves the computed impact has the closed form
`1 - (reserve_out - amount_out) * reserve_in / ((reserve_in + a) * reserve_out)`. -/
lemma calculate_price_impact_reserves_eq {reserve_in reserve_out a : ℕ}
    (hin : 0 < reserve_in) (hout : 0 < reserve_out) :
    calculate_price_impact_reserves reserve_in reserve_out a =
      1 - ((reserve_out : ℚ) - (amount_out_with_fee reserve_in reserve_out a : ℚ)) *
        (reserve_in : ℚ) / (((reserve_in : ℚ) + (a : ℚ)) * (reserve_out : ℚ)) := by
  have hin' : (0 : ℚ) < (reserve_in : ℚ) := by exact_mod_cast hin
  have hout' : (0 : ℚ) < (reserve_out : ℚ) := by exact_mod_cast hout
  have ha : (0 : ℚ) ≤ (a : ℚ) := by positivity
  have hden : (0 : ℚ) < (reserve_in : ℚ) + (a : ℚ) := by linarith
  have hamt : (0 : ℚ) ≤ (amount_out_with_fee reserve_in reserve_out a : ℚ) := by positivity
  unfold calculate_price_impact_reserves
  rw [if_neg (by omega)]
  set out : ℚ := (amount_out_with_fee reserve_in reserve_out a : ℚ) with hout_def
  have hle : ((reserve_out : ℚ) - out) / ((reserve_in : ℚ) + (a : ℚ)) ≤
      (reserve_out : ℚ) / (reserve_in : ℚ) := by
    rw [div_le_div_iff₀ hden hin']
    nlinarith [mul_nonneg hamt hin'.le, mul_nonneg hout'.le ha]
  have habs : |((reserve_out : ℚ) - out) / ((reserve_in : ℚ) + (a : ℚ)) -
      (reserve_out : ℚ) / (reserve_in : ℚ)| =
      (reserve_out : ℚ) / (reserve_in : ℚ) -
        ((reserve_out : ℚ) - out) / ((reserve_in : ℚ) + (a : ℚ)) := by
    rw [abs_sub_comm]
    exact abs_of_nonneg (by linarith)
  simp only [habs]
  field_simp
  ring

lemma calculate_price_impact_reserves_nonneg {reserve_in reserve_out a : ℕ} :
    0 ≤ calculate_price_impact_reserves reserve_in reserve_out a := by
  unfold calculate_price_impact_reserves
  split
  · norm_num
  · set old : ℚ := (reserve_out : ℚ) / (reserve_in : ℚ)
    rename_i hzero
    have hin : 0 < reserve_in := Nat.pos_of_ne_zero (by tauto)
    have hout : 0 < reserve_out := Nat.pos_of_ne_zero (by tauto)
    have hold : (0 : ℚ) < old := by
      have hin' : (0 : ℚ) < (reserve_in : ℚ) := by exact_mod_cast hin
      have hout' : (0 : ℚ) < (reserve_out : ℚ) := by exact_mod_cast hout
      positivity
    positivity

lemma calculate_price_impact_reserves_lt_one {reserve_in reserve_out a : ℕ}
    (hin : 0 < reserve_in) (hout : 0 < reserve_out) :
    calculate_price_impact_reserves reserve_in reserve_out a < 1 := by
  rw [calculate_price_impact_reserves_eq hin hout]
  have hin' : (0 : ℚ) < (reserve_in : ℚ) := by exact_mod_cast hin
  have hout' : (0 : ℚ) < (reserve_out : ℚ) := by exact_mod_cast hout
  have ha : (0 : ℚ) ≤ (a : ℚ) := by positivity
  have hlt : (amount_out_with_fee reserve_in reserve_out a : ℚ) < (reserve_out : ℚ) := by
    exact_mod_cast amount_out_lt hin hout
  have hnum : (0 : ℚ) < ((reserve_out : ℚ) - (amount_out_with_fee reserve_in reserve_out a : ℚ)) *
      (reserve_in : ℚ) := by nlinarith
  have hden : (0 : ℚ) < ((reserve_in : ℚ) + (a : ℚ)) * (reserve_out : ℚ) := by positivity
  have : (0 : ℚ) < ((reserve_out : ℚ) - (amount_out_with_fee reserve_in reserve_out a : ℚ)) *
      (reserve_in : ℚ) / (((reserve_in : ℚ) + (a : ℚ)) * (reserve_out : ℚ)) := by positivity
  linarith

lemma calculate_price_impact_reserves_mono {reserve_in reserve_out a₁ a₂ : ℕ}
    (hin : 0 < reserve_in) (hout : 0 < reserve_out) (h : a₁ ≤ a₂) :
    calculate_price_impact_reserves reserve_in reserve_out a₁ ≤
      calculate_price_impact_reserves reserve_in reserve_out a₂ := by
  rw [calculate_price_impact_reserves_eq hin hout, calculate_price_impact_reserves_eq hin hout]
  have hin' : (0 : ℚ) < (reserve_in : ℚ) := by exact_mod_cast hin
  have hout' : (0 : ℚ) < (reserve_out : ℚ) := by exact_mod_cast hout
  have ha₁ : (0 : ℚ) ≤ (a₁ : ℚ) := by positivity
  have ha₂ : (0 : ℚ) ≤ (a₂ : ℚ) := by positivity
  have h' : (a₁ : ℚ) ≤ (a₂ : ℚ) := by exact_mod_cast h
  have ho12 : (amount_out_with_fee reserve_in reserve_out a₁ : ℚ) ≤
      (amount_out_with_fee reserve_in reserve_out a₂ : ℚ) := by
    exact_mod_cast @amount_out_mono reserve_in reserve_out a₁ a₂ hin h
  have ho₁lt : (amount_out_with_fee reserve_in reserve_out a₁ : ℚ) < (reserve_out : ℚ) := by
    exact_mod_cast @amount_out_lt reserve_in reserve_out a₁ hin hout
  set o₁ : ℚ := (amount_out_with_fee reserve_in reserve_out a₁ : ℚ) with ho₁
  set o₂ : ℚ := (amount_out_with_fee reserve_in reserve_out a₂ : ℚ) with ho₂
  have key : ((reserve_out : ℚ) - o₂) * (reserve_in : ℚ) /
      (((reserve_in : ℚ) + (a₂ : ℚ)) * (reserve_out : ℚ)) ≤
      ((reserve_out : ℚ) - o₁) * (reserve_in : ℚ) /
      (((reserve_in : ℚ) + (a₁ : ℚ)) * (reserve_out : ℚ)) := by
    rw [div_le_div_iff₀ (by positivity) (by positivity)]
    have core : ((reserve_out : ℚ) - o₂) * ((reserve_in : ℚ) + (a₁ : ℚ)) ≤
        ((reserve_out : ℚ) - o₁) * ((reserve_in : ℚ) + (a₂ : ℚ)) := by
      nlinarith [mul_nonneg (sub_nonneg.mpr ho₁lt.le) (sub_nonneg.mpr h'),
        mul_nonneg hin'.le (sub_nonneg.mpr ho12),
        mul_le_mul_of_nonneg_right ho12 ha₁]
    calc ((reserve_out : ℚ) - o₂) * (reserve_in : ℚ) *
          (((reserve_in : ℚ) + (a₁ : ℚ)) * (reserve_out : ℚ))
        = ((reserve_out : ℚ) - o₂) * ((reserve_in : ℚ) + (a₁ : ℚ)) *
          ((reserve_in : ℚ) * (reserve_out : ℚ)) := by ring
      _ ≤ ((reserve_out : ℚ) - o₁) * ((reserve_in : ℚ) + (a₂ : ℚ)) *
          ((reserve_in : ℚ) * (reserve_out : ℚ)) := by
          exact mul_le_mul_of_nonneg_right core (by positivity)
      _ = ((reserve_out : ℚ) - o₁) * (reserve_in : ℚ) *
          (((reserve_in : ℚ) + (a₂ : ℚ)) * (reserve_out : ℚ)) := by ring
  linarith

/-- Extraction of the fields of a record emitted by `_analyze_trade_amount`:
what each returned field equals in terms of the inputs, and the gates a
returned record has passed. -/
lemma analyze_trade_amount_some {amount_wei : ℕ} {buy_reserves sell_reserves : ReservesData}
    {gas_price : ℕ} {r : AnalysisResult}
    (h : analyze_trade_amount amount_wei buy_reserves sell_reserves gas_price = some r) :
    r.profit_eth = from_wei amount_wei * |buy_reserves.price - sell_reserves.price| *
      (1 - (calculate_price_impact buy_reserves amount_wei +
        calculate_price_impact sell_reserves amount_wei)) ∧
    r.net_profit_eth = r.profit_eth - estimate_gas_cost gas_price ∧
    r.gas_cost_eth = estimate_gas_cost gas_price ∧
    r.price_impact_buy = calculate_price_impact buy_reserves amount_wei ∧
    r.price_impact_sell = calculate_price_impact sell_reserves amount_wei ∧
    0 < r.net_profit_eth ∧
    r.net_profit_eth = candidate_net_profit amount_wei buy_reserves sell_reserves gas_price := by
  simp only [analyze_trade_amount] at h
  split at h
  · exact Option.noConfusion h
  · split at h
    · exact Option.noConfusion h
    · next h₂ =>
      rw [Option.some.injEq] at h
      subst h
      push_neg at h₂
      exact ⟨by dsimp only; ring, rfl, rfl, rfl, rfl, h₂, by simp only [candidate_net_profit]⟩

/-- C3: a record emitted by the trade-amount evaluator always has strictly
positive net profit, and a candidate whose computed net profit is
non-positive yields no record at all. -/
theorem claim_C3_no_nonpositive_record (amount_wei : ℕ)
    (buy_reserves sell_reserves : ReservesData) (gas_price : ℕ) :
    (∀ r, analyze_trade_amount amount_wei buy_reserves sell_reserves gas_price = some r →
      0 < r.net_profit_eth) ∧
    (candidate_net_profit amount_wei buy_reserves sell_reserves gas_price ≤ 0 →
      analyze_trade_amount amount_wei buy_reserves sell_reserves gas_price = none) := by
  constructor
  · intro r h
    exact (analyze_trade_amount_some h).2.2.2.2.2.1
  · intro hc
    simp only [candidate_net_profit] at hc
    simp only [analyze_trade_amount]
    by_cases h₁ : 1 / 20 < calculate_price_impact buy_reserves amount_wei ∨
        1 / 20 < calculate_price_impact sell_reserves amount_wei
    · rw [if_pos h₁]
    · rw [if_neg h₁, if_pos hc]

/-- Concrete venue data used by the closed witnesses below: a buy venue at
price 2.2 and a sell venue at price 2.0, both with `10^21`-scale reserves
(so both price fields equal `reserve_b / reserve_a`) and 100 ETH of
recorded liquidity. -/
def buy_fixture : ReservesData := ⟨10 ^ 21, 22 * 10 ^ 20, 11 / 5, 100⟩

def sell_fixture : ReservesData := ⟨10 ^ 21, 2 * 10 ^ 21, 2, 100⟩

/-- The record `_analyze_trade_amount` returns on `buy_fixture` /
`sell_fixture` for a 1 ETH trade at a 1 gwei gas price. -/
def analysis_fixture_one : AnalysisResult :=
  { profit_eth := 2741771961604280532311 / 13763750000000000000000
    net_profit_eth := 2737642836604280532311 / 13763750000000000000000
    gas_cost_eth := 3 / 10000
    profit_margin_pct := 2737642836604280532311 / 137637500000000000000
    confidence_score := 677209461604280532311 / 688187500000000000000
    price_impact_buy := 1097803839571946769 / 550550000000000000000
    price_impact_sell := 1620135536558363 / 812500000000000000
    buy_dex_liquidity_eth := 100
    sell_dex_liquidity_eth := 100
    sufficient_liquidity := true }

/-- The record `_analyze_trade_amount` returns on the same fixtures for a
2 ETH trade. -/
def analysis_fixture_two : AnalysisResult :=
  { profit_eth := 21868438597436711197877 / 55110000000000000000000
    net_profit_eth := 21851905597436711197877 / 55110000000000000000000
    gas_cost_eth := 3 / 10000
    profit_margin_pct := 21851905597436711197877 / 1102200000000000000000
    confidence_score := 5335438597436711197877 / 5511000000000000000000
    price_impact_buy := 4389035064082220053 / 1102200000000000000000
    price_impact_sell := 7980063752876763733 / 2004000000000000000000
    buy_dex_liquidity_eth := 100
    sell_dex_liquidity_eth := 100
    sufficient_liquidity := true }

/-- Evaluation of the trade-amount evaluator on the fixtures: 1 ETH trade. -/
lemma analyze_fixture_one_eq :
    analyze_trade_amount (10 ^ 18) buy_fixture sell_fixture (10 ^ 9) =
      some analysis_fixture_one := by
  unfold analyze_trade_amount calculate_price_impact calculate_price_impact_reserves
    amount_out_with_fee estimate_gas_cost calculate_confidence_score from_wei weiPerEth
    buy_fixture sell_fixture analysis_fixture_one
  norm_num [abs]

/-- Evaluation of the trade-amount evaluator on the fixtures: 2 ETH trade. -/
lemma analyze_fixture_two_eq :
    analyze_trade_amount (2 * 10 ^ 18) buy_fixture sell_fixture (10 ^ 9) =
      some analysis_fixture_two := by
  unfold analyze_trade_amount calculate_price_impact calculate_price_impact_reserves
    amount_out_with_fee estimate_gas_cost calculate_confidence_score from_wei weiPerEth
    buy_fixture sell_fixture analysis_fixture_two
  norm_num [abs]

theorem claim_C3_witness :
    (0 : ℚ) < analysis_fixture_one.net_profit_eth :=
  (claim_C3_no_nonpositive_record (10 ^ 18) buy_fixture sell_fixture (10 ^ 9)).1
    analysis_fixture_one analyze_fixture_one_eq

/-- C2: on positive reserves with `0 ≤ amount_in ≤ reserve_in`, the
computed price impact lies in `[0, 1)` and is monotonically non-decreasing
in the trade amount. -/
theorem claim_C2_impact_range_mono (reserve_in reserve_out a₁ a₂ : ℕ)
    (hin : 0 < reserve_in) (hout : 0 < reserve_out)
    (h₁₂ : a₁ ≤ a₂) (hub : a₂ ≤ reserve_in) :
    (0 ≤ calculate_price_impact_reserves reserve_in reserve_out a₁ ∧
      calculate_price_impact_reserves reserve_in reserve_out a₁ < 1) ∧
    (0 ≤ calculate_price_impact_reserves reserve_in reserve_out a₂ ∧
      calculate_price_impact_reserves reserve_in reserve_out a₂ < 1) ∧
    calculate_price_impact_reserves reserve_in reserve_out a₁ ≤
      calculate_price_impact_reserves reserve_in reserve_out a₂ :=
  ⟨⟨calculate_price_impact_reserves_nonneg, calculate_price_impact_reserves_lt_one hin hout⟩,
    ⟨calculate_price_impact_reserves_nonneg, calculate_price_impact_reserves_lt_one hin hout⟩,
    calculate_price_impact_reserves_mono hin hout h₁₂⟩

/-- Witness for C2 at `reserve_in = 1000`, `reserve_out = 2000000`,
amounts 50 and 100. -/
theorem claim_C2_witness :
    (0 : ℕ) < 1000 ∧
    ((0 ≤ calculate_price_impact_reserves 1000 2000000 50 ∧
      calculate_price_impact_reserves 1000 2000000 50 < 1) ∧
    (0 ≤ calculate_price_impact_reserves 1000 2000000 100 ∧
      calculate_price_impact_reserves 1000 2000000 100 < 1) ∧
    calculate_price_impact_reserves 1000 2000000 50 ≤
      calculate_price_impact_reserves 1000 2000000 100) :=
  ⟨by decide,
    claim_C2_impact_range_mono 1000 2000000 50 100 (by decide) (by decide) (by decide) (by decide)⟩

/-- C4 counterexample: at `reserve_in = 0`, `reserve_out = 5`,
`amount_in = 10` the internally computed `amount_out` is `5 = reserve_out`,
not `0`; no `amount_out` of `0` is produced or returned. -/
theorem claim_C4_counterexample :
    calculate_price_impact_internal_out 0 5 10 = some 5 ∧ (5 : ℕ) ≠ 0 ∧
      calculate_price_impact_reserves 0 5 10 = 1 := by
  refine ⟨by decide, by decide, by decide⟩

/-- C4 as amended: on a zero reserve the function returns impact `1.0` for
every amount (it returns no `amount_out` at all), and with
`reserve_in = 0` and a positive amount the internal intermediate
`amount_out` equals `reserve_out`. -/
theorem claim_C4_amended (reserve_in reserve_out a : ℕ)
    (h : reserve_in = 0 ∨ reserve_out = 0) :
    calculate_price_impact_reserves reserve_in reserve_out a = 1 ∧
    (reserve_in = 0 → 0 < a →
      calculate_price_impact_internal_out reserve_in reserve_out a = some reserve_out) := by
  constructor
  · unfold calculate_price_impact_reserves
    rw [if_pos h]
  · intro h0 ha
    subst h0
    unfold calculate_price_impact_internal_out
    rw [if_neg (show ¬(0 * 1000 + a * 997 = 0) by omega)]
    unfold amount_out_with_fee
    congr 1
    rw [Nat.zero_mul, Nat.zero_add]
    exact Nat.mul_div_cancel_left reserve_out (show 0 < a * 997 by omega)

/-- Witness for C4 at `reserve_in = 0`, `reserve_out = 5`, `amount = 7`. -/
theorem claim_C4_witness :
    calculate_price_impact_reserves 0 5 7 = 1 ∧
      calculate_price_impact_internal_out 0 5 7 = some 5 :=
  ⟨(claim_C4_amended 0 5 7 (by decide)).1,
    (claim_C4_amended 0 5 7 (by decide)).2 rfl (by decide)⟩

/-- C9 counterexample: on the spec's example inputs the exact
constant-product value is `1994000000/10997 ≈ 181322.18`, the
implementation floors it to `181322`, and `181322 ≠ 181425` — the spec's
"≈ 181,425" is not the value of its own formula under any rounding. -/
theorem claim_C9_counterexample :
    amount_out_with_fee 1000 2000000 100 = 181322 ∧
    (181322 : ℚ) ≤ spec_amount_out 1000 2000000 100 ∧
    spec_amount_out 1000 2000000 100 < 181323 ∧
    (181322 : ℕ) ≠ 181425 := by
  refine ⟨by unfold amount_out_with_fee; norm_num, ?_, ?_, by decide⟩
  · unfold spec_amount_out; norm_num
  · unfold spec_amount_out; norm_num

/-- C9 as amended: on `reserve_in = 1000`, `reserve_out = 2000000`,
`amount_in = 100`, `fee = 0.003` the formula value is ≈ 181,322 and the
implementation reproduces it under its own rounding rule: its integer
result is the floor of the exact formula value. -/
theorem claim_C9_amended :
    amount_out_with_fee 1000 2000000 100 = 181322 ∧
    (amount_out_with_fee 1000 2000000 100 : ℚ) ≤ spec_amount_out 1000 2000000 100 ∧
    spec_amount_out 1000 2000000 100 < (amount_out_with_fee 1000 2000000 100 : ℚ) + 1 := by
  have h : amount_out_with_fee 1000 2000000 100 = 181322 := by
    unfold amount_out_with_fee; norm_num
  refine ⟨h, ?_, ?_⟩ <;> rw [h] <;> unfold spec_amount_out <;> norm_num

/-- C1 counterexample: on concrete venue data the evaluator emits a record
whose gross (impact-adjusted) profit is not the two-leg simulation value
`leg2_output - trade_amount`: the code's single-formula value is
`2741771961604280532311/13763750000000000000000 ≈ 0.199` ETH while the
spec's two-leg simulation gives `913194901/10020904099 ≈ 0.091` ETH. -/
theorem claim_C1_counterexample :
    analyze_trade_amount (10 ^ 18) buy_fixture sell_fixture (10 ^ 9) =
      some analysis_fixture_one ∧
    analysis_fixture_one.profit_eth ≠
      spec_two_leg_gross_profit (10 ^ 18) buy_fixture sell_fixture := by
  refine ⟨analyze_fixture_one_eq, ?_⟩
  unfold spec_two_leg_gross_profit spec_amount_out buy_fixture sell_fixture weiPerEth
    analysis_fixture_one
  norm_num

/-- C1 as amended: every record the evaluator emits carries as its gross
profit the single-formula price-difference approximation
`trade_amount_eth * |buy_price - sell_price|`, reduced by the combined
impact fraction — not a two-leg simulation. -/
theorem claim_C1_amended (amount_wei : ℕ) (buy_reserves sell_reserves : ReservesData)
    (gas_price : ℕ) (r : AnalysisResult)
    (h : analyze_trade_amount amount_wei buy_reserves sell_reserves gas_price = some r) :
    r.profit_eth = from_wei amount_wei * |buy_reserves.price - sell_reserves.price| *
      (1 - (calculate_price_impact buy_reserves amount_wei +
        calculate_price_impact sell_reserves amount_wei)) :=
  (analyze_trade_amount_some h).1

/-- Witness for the amended C1 at the concrete fixtures. -/
theorem claim_C1_witness :
    analysis_fixture_one.profit_eth =
      from_wei (10 ^ 18) * |buy_fixture.price - sell_fixture.price| *
        (1 - (calculate_price_impact buy_fixture (10 ^ 18) +
          calculate_price_impact sell_fixture (10 ^ 18))) :=
  claim_C1_amended (10 ^ 18) buy_fixture sell_fixture (10 ^ 9) analysis_fixture_one
    analyze_fixture_one_eq

/-- C7 counterexample: two emitted records at trade amounts 1 ETH and 2 ETH
(same fee-rate) carry the same gas cost estimate — the estimate does not
increase with trade size. -/
theorem claim_C7_counterexample :
    analyze_trade_amount (10 ^ 18) buy_fixture sell_fixture (10 ^ 9) =
      some analysis_fixture_one ∧
    analyze_trade_amount (2 * 10 ^ 18) buy_fixture sell_fixture (10 ^ 9) =
      some analysis_fixture_two ∧
    (10 ^ 18 : ℕ) < 2 * 10 ^ 18 ∧
    analysis_fixture_one.gas_cost_eth = analysis_fixture_two.gas_cost_eth :=
  ⟨analyze_fixture_one_eq, analyze_fixture_two_eq, by norm_num, rfl⟩

/-- C7 as amended: the gas cost estimate is the fixed 300000 gas-unit count
times the cached fee-rate, independent of trade size: any two records
emitted at the same fee-rate carry the same gas cost, namely
`estimate_gas_cost gas_price`. -/
theorem claim_C7_amended (gas_price a₁ a₂ : ℕ) (buy_reserves sell_reserves : ReservesData)
    (r₁ r₂ : AnalysisResult)
    (h₁ : analyze_trade_amount a₁ buy_reserves sell_reserves gas_price = some r₁)
    (h₂ : analyze_trade_amount a₂ buy_reserves sell_reserves gas_price = some r₂) :
    r₁.gas_cost_eth = estimate_gas_cost gas_price ∧
    r₂.gas_cost_eth = estimate_gas_cost gas_price ∧
    r₁.gas_cost_eth = r₂.gas_cost_eth := by
  have e₁ := (analyze_trade_amount_some h₁).2.2.1
  have e₂ := (analyze_trade_amount_some h₂).2.2.1
  exact ⟨e₁, e₂, by rw [e₁, e₂]⟩

/-- Witness for the amended C7 at the concrete fixtures. -/
theorem claim_C7_witness :
    analysis_fixture_one.gas_cost_eth = estimate_gas_cost (10 ^ 9) ∧
    analysis_fixture_two.gas_cost_eth = estimate_gas_cost (10 ^ 9) ∧
    analysis_fixture_one.gas_cost_eth = analysis_fixture_two.gas_cost_eth :=
  claim_C7_amended (10 ^ 9) (10 ^ 18) (2 * 10 ^ 18) buy_fixture sell_fixture
    analysis_fixture_one analysis_fixture_two analyze_fixture_one_eq analyze_fixture_two_eq

/-- C10: when the two venue prices differ by less than 0.1% relative to the
lower price, pair analysis returns no opportunity, whatever the liquidity,
gas price, or candidate ladder would have produced. -/
theorem claim_C10_price_diff_gate (pair_name : String) (uni sushi : ReservesData)
    (max_trade_amount_eth : ℚ) (gas_price : ℕ)
    (h : |uni.price - sushi.price| / min uni.price sushi.price * 100 < 1 / 10) :
    analyze_pair_opportunity pair_name (some uni) (some sushi)
      max_trade_amount_eth gas_price = none := by
  simp only [analyze_pair_opportunity]
  by_cases h0 : min uni.price sushi.price = 0
  · rw [if_pos h0]
  · rw [if_neg h0, if_pos h]

/-- Witness for C10: two venues quoting the identical price (difference 0%). -/
theorem claim_C10_witness :
    analyze_pair_opportunity "WETH/USDC" (some sell_fixture) (some sell_fixture)
      5 (10 ^ 9) = none :=
  claim_C10_price_diff_gate "WETH/USDC" sell_fixture sell_fixture 5 (10 ^ 9)
    (by unfold sell_fixture; norm_num)

/-!  The global filter-and-rank step (C6). -/

/-- An opportunity with net profit 1 ETH and confidence 0.5; passes every
filter with thresholds 0. -/
def opportunity_fixture_low_conf : Opportunity :=
  { pair := "WETH/USDC", buy_dex := "uniswap", sell_dex := "sushiswap"
    buy_price := 2, sell_price := 11 / 5, price_difference_pct := 10
    trade_amount_wei := 10 ^ 18, estimated_profit_eth := 11 / 10, gas_cost_eth := 1 / 10
    net_profit_eth := 1, profit_margin_pct := 100, confidence_score := 1 / 2
    price_impact_buy := 1 / 100, price_impact_sell := 1 / 100, sufficient_liquidity := true }

/-- An opportunity with the same net profit 1 ETH but confidence 0.9. -/
def opportunity_fixture_high_conf : Opportunity :=
  { pair := "WETH/DAI", buy_dex := "sushiswap", sell_dex := "uniswap"
    buy_price := 2, sell_price := 11 / 5, price_difference_pct := 10
    trade_amount_wei := 10 ^ 18, estimated_profit_eth := 11 / 10, gas_cost_eth := 1 / 10
    net_profit_eth := 1, profit_margin_pct := 100, confidence_score := 9 / 10
    price_impact_buy := 1 / 200, price_impact_sell := 1 / 200, sufficient_liquidity := true }

/-- C6 counterexample: two opportunities tie on net profit and the
lower-confidence one comes first in the input; the returned ranking keeps
it first (stable sort by net profit only), so ties are not broken by
confidence descending. -/
theorem claim_C6_counterexample :
    filter_profitable_opportunities 0 0
        [opportunity_fixture_low_conf, opportunity_fixture_high_conf] =
      [opportunity_fixture_low_conf, opportunity_fixture_high_conf] ∧
    opportunity_fixture_low_conf.net_profit_eth =
      opportunity_fixture_high_conf.net_profit_eth ∧
    opportunity_fixture_low_conf.confidence_score <
      opportunity_fixture_high_conf.confidence_score := by
  have h1 : passes_opportunity_filters 0 0 opportunity_fixture_low_conf = true := by
    unfold passes_opportunity_filters opportunity_fixture_low_conf
    norm_num
  have h2 : passes_opportunity_filters 0 0 opportunity_fixture_high_conf = true := by
    unfold passes_opportunity_filters opportunity_fixture_high_conf
    norm_num
  refine ⟨?_, rfl, by norm_num [opportunity_fixture_low_conf, opportunity_fixture_high_conf]⟩
  unfold filter_profitable_opportunities
  rw [List.filter_cons_of_pos h1, List.filter_cons_of_pos h2, List.filter_nil]
  simp only [sort_by_net_desc, insert_by_net_desc]
  norm_num [opportunity_fixture_low_conf, opportunity_fixture_high_conf]

lemma mem_insert_by_net_desc {x y : Opportunity} :
    ∀ {l : List Opportunity}, y ∈ insert_by_net_desc x l → y = x ∨ y ∈ l := by
  intro l
  induction l with
  | nil => simp [insert_by_net_desc]
  | cons z zs ih =>
    simp only [insert_by_net_desc]
    split
    · intro hy
      rcases List.mem_cons.mp hy with hz | hy'
      · exact Or.inr (hz ▸ List.mem_cons_self z zs)
      · rcases ih hy' with h | h
        · exact Or.inl h
        · exact Or.inr (List.mem_cons_of_mem z h)
    · intro hy
      rcases List.mem_cons.mp hy with hz | hy'
      · exact Or.inl hz
      · exact Or.inr hy'

lemma insert_by_net_desc_perm (x : Opportunity) :
    ∀ l : List Opportunity, List.Perm (insert_by_net_desc x l) (x :: l) := by
  intro l
  induction l with
  | nil => simp [insert_by_net_desc]
  | cons z zs ih =>
    simp only [insert_by_net_desc]
    split
    · exact ((ih.cons z).trans (List.Perm.swap x z zs)).symm.symm
    · exact List.Perm.refl _

lemma sorted_insert_by_net_desc {x : Opportunity} :
    ∀ {l : List Opportunity},
      l.Pairwise (fun a b => b.net_profit_eth ≤ a.net_profit_eth) →
      (insert_by_net_desc x l).Pairwise (fun a b => b.net_profit_eth ≤ a.net_profit_eth) := by
  intro l
  induction l with
  | nil => simp [insert_by_net_desc]
  | cons z zs ih =>
    intro hp
    rcases List.pairwise_cons.mp hp with ⟨hz, hzs⟩
    simp only [insert_by_net_desc]
    split
    · next hlt =>
      refine List.pairwise_cons.mpr ⟨?_, ih hzs⟩
      intro y hy
      rcases mem_insert_by_net_desc hy with rfl | hy'
      · exact le_of_lt hlt
      · exact hz y hy'
    · next hge =>
      push_neg at hge
      refine List.pairwise_cons.mpr ⟨?_, hp⟩
      intro y hy
      rcases List.mem_cons.mp hy with rfl | hy'
      · exact hge
      · exact le_trans (hz y hy') hge

lemma sort_by_net_desc_perm :
    ∀ l : List Opportunity, List.Perm (sort_by_net_desc l) l := by
  intro l
  induction l with
  | nil => exact List.Perm.refl _
  | cons x xs ih =>
    simp only [sort_by_net_desc]
    exact (insert_by_net_desc_perm x (sort_by_net_desc xs)).trans (ih.cons x)

lemma sorted_sort_by_net_desc (l : List Opportunity) :
    (sort_by_net_desc l).Pairwise (fun a b => b.net_profit_eth ≤ a.net_profit_eth) := by
  induction l with
  | nil => simp [sort_by_net_desc]
  | cons x xs ih =>
    simp only [sort_by_net_desc]
    exact sorted_insert_by_net_desc ih

lemma filter_insert_by_net_desc (x : Opportunity) (v : ℚ) :
    ∀ l : List Opportunity,
      (insert_by_net_desc x l).filter (fun o => decide (o.net_profit_eth = v)) =
        if x.net_profit_eth = v then
          x :: l.filter (fun o => decide (o.net_profit_eth = v))
        else l.filter (fun o => decide (o.net_profit_eth = v)) := by
  intro l
  induction l with
  | nil =>
    by_cases hxv : x.net_profit_eth = v
    · simp [insert_by_net_desc, hxv]
    · simp [insert_by_net_desc, hxv]
  | cons z zs ih =>
    simp only [insert_by_net_desc]
    split
    · next hlt =>
      by_cases hzv : z.net_profit_eth = v
      · by_cases hxv : x.net_profit_eth = v
        · exact absurd (hxv.trans hzv.symm ▸ hlt) (lt_irrefl _)
        · simp [List.filter_cons, hzv, hxv, ih]
      · simp [List.filter_cons, hzv, ih]
    · by_cases hxv : x.net_profit_eth = v
      · simp [List.filter_cons, hxv]
      · simp [List.filter_cons, hxv]

lemma filter_sort_by_net_desc (v : ℚ) :
    ∀ l : List Opportunity,
      (sort_by_net_desc l).filter (fun o => decide (o.net_profit_eth = v)) =
        l.filter (fun o => decide (o.net_profit_eth = v)) := by
  intro l
  induction l with
  | nil => rfl
  | cons x xs ih =>
    simp only [sort_by_net_desc]
    rw [filter_insert_by_net_desc]
    by_cases hxv : x.net_profit_eth = v
    · simp [List.filter_cons, hxv, ih]
    · simp [List.filter_cons, hxv, ih]

/-- C6 as amended: the scan's final list is exactly the input opportunities
that pass the global filters, sorted by net profit descending by a stable
sort — within a tie on net profit the input order is preserved (there is
no confidence or pair-identity tie-break). -/
theorem claim_C6_amended (min_profit_eth confidence_threshold : ℚ)
    (opportunities : List Opportunity) (v : ℚ) :
    (filter_profitable_opportunities min_profit_eth confidence_threshold
      opportunities).Pairwise (fun a b => b.net_profit_eth ≤ a.net_profit_eth) ∧
    List.Perm (filter_profitable_opportunities min_profit_eth confidence_threshold opportunities)
      (opportunities.filter (passes_opportunity_filters min_profit_eth confidence_threshold)) ∧
    (filter_profitable_opportunities min_profit_eth confidence_threshold
        opportunities).filter (fun o => decide (o.net_profit_eth = v)) =
      (opportunities.filter (passes_opportunity_filters min_profit_eth
        confidence_threshold)).filter (fun o => decide (o.net_profit_eth = v)) := by
  unfold filter_profitable_opportunities
  exact ⟨sorted_sort_by_net_desc _, sort_by_net_desc_perm _, filter_sort_by_net_desc v _⟩

/-!  The trade-size selection loop (C5). -/

/-- The selected candidate's `profit_eth` dominates the running best and
every evaluated candidate in the list. -/
lemma select_best_ge (buy_reserves sell_reserves : ReservesData) (gas_price : ℕ) :
    ∀ (amounts : List ℕ) (bp : ℚ) (best : Option (ℕ × AnalysisResult))
      (a : ℕ) (r : AnalysisResult),
      (∀ a₀ r₀, best = some (a₀, r₀) → bp ≤ r₀.profit_eth) →
      select_best_analysis buy_reserves sell_reserves gas_price amounts bp best = some (a, r) →
      bp ≤ r.profit_eth ∧
      ∀ a' ∈ amounts, ∀ r',
        analyze_trade_amount a' buy_reserves sell_reserves gas_price = some r' →
        r'.profit_eth ≤ r.profit_eth := by
  intro amounts
  induction amounts with
  | nil =>
    intro bp best a r hbp hsel
    simp only [select_best_analysis] at hsel
    exact ⟨hbp a r hsel, by simp⟩
  | cons x rest ih =>
    intro bp best a r hbp hsel
    simp only [select_best_analysis] at hsel
    rcases heq : analyze_trade_amount x buy_reserves sell_reserves gas_price with _ | rx
    · rw [heq] at hsel
      obtain ⟨h₁, h₂⟩ := ih bp best a r hbp hsel
      refine ⟨h₁, ?_⟩
      intro a' ha' r' h'
      rcases List.mem_cons.mp ha' with rfl | ha'
      · rw [heq] at h'; exact Option.noConfusion h'
      · exact h₂ a' ha' r' h'
    · rw [heq] at hsel
      dsimp only at hsel
      by_cases hc : bp < rx.profit_eth
      · rw [if_pos hc] at hsel
        obtain ⟨h₁, h₂⟩ := ih rx.profit_eth (some (x, rx)) a r
          (by intro a₀ r₀ h₀; rw [Option.some.injEq, Prod.mk.injEq] at h₀; rw [← h₀.2]) hsel
        refine ⟨le_of_lt (lt_of_lt_of_le hc h₁), ?_⟩
        intro a' ha' r' h'
        rcases List.mem_cons.mp ha' with rfl | ha'
        · rw [heq, Option.some.injEq] at h'
          rw [← h']
          exact h₁
        · exact h₂ a' ha' r' h'
      · rw [if_neg hc] at hsel
        push_neg at hc
        obtain ⟨h₁, h₂⟩ := ih bp best a r hbp hsel
        refine ⟨h₁, ?_⟩
        intro a' ha' r' h'
        rcases List.mem_cons.mp ha' with rfl | ha'
        · rw [heq, Option.some.injEq] at h'
          rw [← h']
          exact le_trans hc h₁
        · exact h₂ a' ha' r' h'

/-- The selected candidate is either the running best or a list element
that strictly beat the running best profit. -/
lemma select_best_source (buy_reserves sell_reserves : ReservesData) (gas_price : ℕ) :
    ∀ (amounts : List ℕ) (bp : ℚ) (best : Option (ℕ × AnalysisResult))
      (a : ℕ) (r : AnalysisResult),
      select_best_analysis buy_reserves sell_reserves gas_price amounts bp best = some (a, r) →
      best = some (a, r) ∨
        (a ∈ amounts ∧
          analyze_trade_amount a buy_reserves sell_reserves gas_price = some r ∧
          bp < r.profit_eth) := by
  intro amounts
  induction amounts with
  | nil =>
    intro bp best a r hsel
    simp only [select_best_analysis] at hsel
    exact Or.inl hsel
  | cons x rest ih =>
    intro bp best a r hsel
    simp only [select_best_analysis] at hsel
    rcases heq : analyze_trade_amount x buy_reserves sell_reserves gas_price with _ | rx
    · rw [heq] at hsel
      rcases ih bp best a r hsel with h | ⟨h₁, h₂, h₃⟩
      · exact Or.inl h
      · exact Or.inr ⟨List.mem_cons_of_mem x h₁, h₂, h₃⟩
    · rw [heq] at hsel
      dsimp only at hsel
      by_cases hc : bp < rx.profit_eth
      · rw [if_pos hc] at hsel
        rcases ih rx.profit_eth (some (x, rx)) a r hsel with h | ⟨h₁, h₂, h₃⟩
        · rw [Option.some.injEq, Prod.mk.injEq] at h
          refine Or.inr ⟨h.1 ▸ List.mem_cons_self x rest, ?_, ?_⟩
          · rw [← h.1, heq, h.2]
          · rw [← h.2]; exact hc
        · exact Or.inr ⟨List.mem_cons_of_mem x h₁, h₂, lt_trans hc h₃⟩
      · rw [if_neg hc] at hsel
        rcases ih bp best a r hsel with h | ⟨h₁, h₂, h₃⟩
        · exact Or.inl h
        · exact Or.inr ⟨List.mem_cons_of_mem x h₁, h₂, h₃⟩

/-- With the candidates in ascending order, the selected candidate is never
preceded in the list by a candidate of equal profit: on a profit tie the
selected amount is the smaller one. -/
lemma select_best_first_of_ties (buy_reserves sell_reserves : ReservesData) (gas_price : ℕ) :
    ∀ (amounts : List ℕ) (bp : ℚ) (best : Option (ℕ × AnalysisResult))
      (a : ℕ) (r : AnalysisResult),
      amounts.Sorted (· ≤ ·) →
      (∀ a₀ r₀, best = some (a₀, r₀) → bp ≤ r₀.profit_eth) →
      select_best_analysis buy_reserves sell_reserves gas_price amounts bp best = some (a, r) →
      ∀ a' ∈ amounts, ∀ r',
        analyze_trade_amount a' buy_reserves sell_reserves gas_price = some r' →
        r'.profit_eth = r.profit_eth →
        best = some (a, r) ∨ a ≤ a' := by
  intro amounts
  induction amounts with
  | nil =>
    intro bp best a r _ _ _
    simp
  | cons x rest ih =>
    intro bp best a r hsorted hbp hsel
    have hx := List.sorted_cons.mp hsorted
    simp only [select_best_analysis] at hsel
    rcases heq : analyze_trade_amount x buy_reserves sell_reserves gas_price with _ | rx
    · rw [heq] at hsel
      intro a' ha' r' h' htie
      rcases List.mem_cons.mp ha' with rfl | ha'
      · rw [heq] at h'; exact Option.noConfusion h'
      · exact ih bp best a r hx.2 hbp hsel a' ha' r' h' htie
    · rw [heq] at hsel
      dsimp only at hsel
      by_cases hc : bp < rx.profit_eth
      · rw [if_pos hc] at hsel
        have hbp' : ∀ a₀ r₀, (some (x, rx) : Option (ℕ × AnalysisResult)) = some (a₀, r₀) →
            rx.profit_eth ≤ r₀.profit_eth := by
          intro a₀ r₀ h₀; rw [Option.some.injEq, Prod.mk.injEq] at h₀; rw [← h₀.2]
        intro a' ha' r' h' htie
        rcases List.mem_cons.mp ha' with rfl | ha'
        · rw [heq, Option.some.injEq] at h'
          rcases select_best_source buy_reserves sell_reserves gas_price rest
              rx.profit_eth (some (a', rx)) a r hsel with h | ⟨_, _, h₃⟩
          · rw [Option.some.injEq, Prod.mk.injEq] at h
            exact Or.inr (le_of_eq h.1.symm)
          · rw [h', htie] at h₃
            exact absurd h₃ (lt_irrefl _)
        · rcases ih rx.profit_eth (some (x, rx)) a r hx.2 hbp' hsel a' ha' r' h' htie with
            h | h
          · rw [Option.some.injEq, Prod.mk.injEq] at h
            exact Or.inr (h.1 ▸ hx.1 a' ha')
          · exact Or.inr h
      · rw [if_neg hc] at hsel
        push_neg at hc
        intro a' ha' r' h' htie
        rcases List.mem_cons.mp ha' with rfl | ha'
        · rw [heq, Option.some.injEq] at h'
          have hge := (select_best_ge buy_reserves sell_reserves gas_price rest
            bp best a r hbp hsel).1
          rcases select_best_source buy_reserves sell_reserves gas_price rest
              bp best a r hsel with h | ⟨_, _, h₃⟩
          · exact Or.inl h
          · rw [h', htie] at hc
            exact absurd (lt_of_le_of_lt hc h₃) (lt_irrefl _)
        · exact ih bp best a r hx.2 hbp hsel a' ha' r' h' htie

/-- `estimate_gas_cost` is non-negative. -/
lemma estimate_gas_cost_nonneg (gas_price : ℕ) : 0 ≤ estimate_gas_cost gas_price := by
  unfold estimate_gas_cost from_wei weiPerEth
  positivity

/-- On a net-profit tie between two emitted records at different amounts,
the larger amount carries the strictly larger combined price impact. -/
lemma tie_combined_impact_lt {a₁ a₂ : ℕ} {buy_reserves sell_reserves : ReservesData}
    {gas_price : ℕ} {r₁ r₂ : AnalysisResult}
    (h₁ : analyze_trade_amount a₁ buy_reserves sell_reserves gas_price = some r₁)
    (h₂ : analyze_trade_amount a₂ buy_reserves sell_reserves gas_price = some r₂)
    (hnet : r₁.net_profit_eth = r₂.net_profit_eth) (hlt : a₁ < a₂) :
    r₁.price_impact_buy + r₁.price_impact_sell <
      r₂.price_impact_buy + r₂.price_impact_sell := by
  obtain ⟨e₁p, e₁n, e₁g, e₁b, e₁s, e₁pos, -⟩ := analyze_trade_amount_some h₁
  obtain ⟨e₂p, e₂n, e₂g, e₂b, e₂s, e₂pos, -⟩ := analyze_trade_amount_some h₂
  rw [e₁b, e₁s, e₂b, e₂s]
  set pd : ℚ := |buy_reserves.price - sell_reserves.price| with hpd_def
  set s₁ : ℚ := calculate_price_impact buy_reserves a₁ + calculate_price_impact sell_reserves a₁
    with hs₁_def
  set s₂ : ℚ := calculate_price_impact buy_reserves a₂ + calculate_price_impact sell_reserves a₂
    with hs₂_def
  have hpd : 0 ≤ pd := abs_nonneg _
  have hprofit : r₁.profit_eth = r₂.profit_eth := by
    have h := hnet
    rw [e₁n, e₂n] at h
    linarith
  have heq : from_wei a₁ * pd * (1 - s₁) = from_wei a₂ * pd * (1 - s₂) := by
    rw [← e₁p, ← e₂p, hprofit]
  have hpos₁ : 0 < from_wei a₁ * pd * (1 - s₁) := by
    have h0 : 0 < r₁.profit_eth := lt_of_le_of_lt (estimate_gas_cost_nonneg gas_price)
      (by rw [e₁n] at e₁pos; linarith)
    rw [e₁p] at h0
    exact h0
  have hw₁ : 0 < from_wei a₁ := by
    by_contra hw
    push_neg at hw
    have hw0 : from_wei a₁ = 0 := le_antisymm hw (by unfold from_wei weiPerEth; positivity)
    rw [hw0] at hpos₁
    simp at hpos₁
  have hww : from_wei a₁ < from_wei a₂ := by
    unfold from_wei weiPerEth
    have hcast : (a₁ : ℚ) < (a₂ : ℚ) := by exact_mod_cast hlt
    exact (div_lt_div_iff_of_pos_right (by norm_num)).mpr hcast
  have hw₂ : 0 < from_wei a₂ := lt_trans hw₁ hww
  have hX : 0 < pd * (1 - s₁) := by
    by_contra hX
    push_neg at hX
    have := mul_nonpos_of_nonneg_of_nonpos hw₁.le hX
    rw [← mul_assoc] at this
    linarith
  have hpd_pos : 0 < pd := by
    rcases lt_or_eq_of_le hpd with h | h
    · exact h
    · rw [← h] at hX
      simp at hX
  have h1s₁ : 0 < 1 - s₁ := by
    by_contra hcon
    push_neg at hcon
    have := mul_nonpos_of_nonneg_of_nonpos hpd_pos.le hcon
    linarith
  have h1s₂ : 0 < 1 - s₂ := by
    have hpos₂ : 0 < from_wei a₂ * pd * (1 - s₂) := heq ▸ hpos₁
    by_contra hcon
    push_neg at hcon
    have := mul_nonpos_of_nonneg_of_nonpos (mul_pos hw₂ hpd_pos).le hcon
    rw [mul_assoc] at hpos₂
    rw [mul_assoc] at this
    nlinarith [mul_nonpos_of_nonneg_of_nonpos hpd_pos.le hcon, hw₂]
  have key : from_wei a₁ * (1 - s₁) = from_wei a₂ * (1 - s₂) := by
    have h' : pd * (from_wei a₁ * (1 - s₁)) = pd * (from_wei a₂ * (1 - s₂)) := by
      linear_combination heq
    exact mul_left_cancel₀ (ne_of_gt hpd_pos) h'
  have hlt₂ : from_wei a₂ * (1 - s₂) < from_wei a₂ * (1 - s₁) := by
    rw [← key]
    calc from_wei a₁ * (1 - s₁) < from_wei a₂ * (1 - s₁) :=
      mul_lt_mul_of_pos_right hww h1s₁
    _ = from_wei a₂ * (1 - s₁) := rfl
  have := lt_of_mul_lt_mul_left hlt₂ hw₂.le
  linarith

/-- C5: on an ascending candidate ladder, the trade-size search selects an
evaluated candidate that beats every evaluated candidate in the
lexicographic order the claim describes: highest net profit first; on a
net-profit tie, lower combined price impact; on a further tie, the larger
trade amount. -/
theorem claim_C5_search_selects_best (buy_reserves sell_reserves : ReservesData)
    (gas_price : ℕ) (amounts : List ℕ) (hsorted : amounts.Sorted (· ≤ ·))
    (a : ℕ) (r : AnalysisResult)
    (hsel : select_best_analysis buy_reserves sell_reserves gas_price amounts 0 none =
      some (a, r))
    (a' : ℕ) (ha' : a' ∈ amounts) (r' : AnalysisResult)
    (h' : analyze_trade_amount a' buy_reserves sell_reserves gas_price = some r') :
    (a ∈ amounts ∧ analyze_trade_amount a buy_reserves sell_reserves gas_price = some r) ∧
    (r'.net_profit_eth < r.net_profit_eth ∨
      (r'.net_profit_eth = r.net_profit_eth ∧
        (r.price_impact_buy + r.price_impact_sell <
            r'.price_impact_buy + r'.price_impact_sell ∨
          (r.price_impact_buy + r.price_impact_sell =
              r'.price_impact_buy + r'.price_impact_sell ∧ a' ≤ a)))) := by
  have hbp0 : ∀ a₀ r₀, (none : Option (ℕ × AnalysisResult)) = some (a₀, r₀) →
      (0 : ℚ) ≤ r₀.profit_eth := by
    intro a₀ r₀ h₀; exact Option.noConfusion h₀
  have hsrc := select_best_source buy_reserves sell_reserves gas_price amounts 0 none a r hsel
  rcases hsrc with h | ⟨hmem, hana, -⟩
  · exact Option.noConfusion h
  refine ⟨⟨hmem, hana⟩, ?_⟩
  have hprofit_le : r'.profit_eth ≤ r.profit_eth :=
    (select_best_ge buy_reserves sell_reserves gas_price amounts 0 none a r hbp0 hsel).2
      a' ha' r' h'
  obtain ⟨-, ern, erg, -, -, -, -⟩ := analyze_trade_amount_some hana
  obtain ⟨-, ern', erg', -, -, -, -⟩ := analyze_trade_amount_some h'
  have hnet_le : r'.net_profit_eth ≤ r.net_profit_eth := by
    rw [ern, ern']
    linarith
  rcases lt_or_eq_of_le hnet_le with hlt | hnet_eq
  · exact Or.inl hlt
  · refine Or.inr ⟨hnet_eq, ?_⟩
    have hprofit_eq : r'.profit_eth = r.profit_eth := by
      rw [ern, ern'] at hnet_eq
      linarith
    have hfirst := select_best_first_of_ties buy_reserves sell_reserves gas_price amounts
      0 none a r hsorted hbp0 hsel a' ha' r' h' hprofit_eq
    rcases hfirst with h | haa'
    · exact Option.noConfusion h
    rcases lt_or_eq_of_le haa' with hstrict | hsame
    · exact Or.inl (tie_combined_impact_lt hana h' hnet_eq.symm hstrict)
    · subst hsame
      rw [hana, Option.some.injEq] at h'
      rw [h']
      exact Or.inr ⟨rfl, le_refl a⟩

/-- The selection loop on the concrete fixtures with the ascending ladder
`[1 ETH, 2 ETH]` picks the 2 ETH candidate. -/
lemma select_best_fixture_eq :
    select_best_analysis buy_fixture sell_fixture (10 ^ 9) [10 ^ 18, 2 * 10 ^ 18] 0 none =
      some (2 * 10 ^ 18, analysis_fixture_two) := by
  have h01 : (0 : ℚ) < analysis_fixture_one.profit_eth := by
    norm_num [analysis_fixture_one]
  have h12 : analysis_fixture_one.profit_eth < analysis_fixture_two.profit_eth := by
    norm_num [analysis_fixture_one, analysis_fixture_two]
  simp only [select_best_analysis, analyze_fixture_one_eq, analyze_fixture_two_eq]
  rw [if_pos h01, if_pos h12]

/-- Witness for C5 at the concrete fixtures: the selected 2 ETH candidate
lexicographically dominates the evaluated 1 ETH candidate. -/
theorem claim_C5_witness :
    ((2 * 10 ^ 18 ∈ [10 ^ 18, 2 * 10 ^ 18] ∧
      analyze_trade_amount (2 * 10 ^ 18) buy_fixture sell_fixture (10 ^ 9) =
        some analysis_fixture_two) ∧
    (analysis_fixture_one.net_profit_eth < analysis_fixture_two.net_profit_eth ∨
      (analysis_fixture_one.net_profit_eth = analysis_fixture_two.net_profit_eth ∧
        (analysis_fixture_two.price_impact_buy + analysis_fixture_two.price_impact_sell <
            analysis_fixture_one.price_impact_buy + analysis_fixture_one.price_impact_sell ∨
          (analysis_fixture_two.price_impact_buy + analysis_fixture_two.price_impact_sell =
              analysis_fixture_one.price_impact_buy + analysis_fixture_one.price_impact_sell ∧
            (10 ^ 18 : ℕ) ≤ 2 * 10 ^ 18))))) :=
  claim_C5_search_selects_best buy_fixture sell_fixture (10 ^ 9) [10 ^ 18, 2 * 10 ^ 18]
    (by decide) (2 * 10 ^ 18) analysis_fixture_two select_best_fixture_eq
    (10 ^ 18) (by decide) analysis_fixture_one analyze_fixture_one_eq

/-!  Pair generation (C8). -/

/-- A pair produced by the WETH branch for a tier: `("WETH", t)` with `t`
a non-WETH tier token. -/
def weth_tier_pair (tier : List String) (p : TokenPair) : Prop :=
  p.1 = "WETH" ∧ p.2 ≠ "WETH" ∧ p.2 ∈ tier

/-- A pair with two distinct tokens of the given tier. -/
def tier_pair (tier : List String) (p : TokenPair) : Prop :=
  p.1 ≠ p.2 ∧ p.1 ∈ tier ∧ p.2 ∈ tier

/-- The invariant of every pair generated from the already-processed token
lists `toks`: distinct components, and either a WETH pair into `toks` or a
pair within `toks`. -/
def pair_inv (toks : List String) (p : TokenPair) : Prop :=
  p.1 ≠ p.2 ∧
    ((p.1 = "WETH" ∧ p.2 ≠ "WETH" ∧ p.2 ∈ toks) ∨ (p.1 ∈ toks ∧ p.2 ∈ toks))

lemma pair_inv_mono {toks toks' : List String} {p : TokenPair}
    (hsub : ∀ x ∈ toks, x ∈ toks') (h : pair_inv toks p) : pair_inv toks' p := by
  obtain ⟨hne, h | h⟩ := h
  · exact ⟨hne, Or.inl ⟨h.1, h.2.1, hsub _ h.2.2⟩⟩
  · exact ⟨hne, Or.inr ⟨hsub _ h.1, hsub _ h.2⟩⟩

lemma mixed_to_pair_inv {toks tier : List String} {p : TokenPair}
    (h : pair_inv toks p ∨ weth_tier_pair tier p ∨ tier_pair tier p) :
    pair_inv (toks ++ tier) p := by
  rcases h with h | h | h
  · exact pair_inv_mono (fun x hx => List.mem_append_left _ hx) h
  · exact ⟨h.1 ▸ Ne.symm h.2.1, Or.inl ⟨h.1, h.2.1, List.mem_append_right _ h.2.2⟩⟩
  · exact ⟨h.1, Or.inr ⟨List.mem_append_right _ h.2.1, List.mem_append_right _ h.2.2⟩⟩

lemma mem_combinations2 {α : Type} {p : α × α} :
    ∀ {l : List α}, p ∈ combinations2 l → p.1 ∈ l ∧ p.2 ∈ l := by
  intro l
  induction l with
  | nil => simp [combinations2]
  | cons x xs ih =>
    intro hp
    rcases List.mem_append.mp hp with hp | hp
    · obtain ⟨y, hy, hxy⟩ := List.mem_map.mp hp
      rw [← hxy]
      exact ⟨List.mem_cons_self x xs, List.mem_cons_of_mem x hy⟩
    · obtain ⟨h1, h2⟩ := ih hp
      exact ⟨List.mem_cons_of_mem x h1, List.mem_cons_of_mem x h2⟩

lemma combinations2_ne {α : Type} :
    ∀ {l : List α}, l.Nodup → ∀ p ∈ combinations2 l, p.1 ≠ p.2 := by
  intro l
  induction l with
  | nil => simp [combinations2]
  | cons x xs ih =>
    intro hnd p hp
    obtain ⟨hx, hxs⟩ := List.nodup_cons.mp hnd
    rcases List.mem_append.mp hp with hp | hp
    · obtain ⟨y, hy, hxy⟩ := List.mem_map.mp hp
      rw [← hxy]
      intro hcon
      have hxy' : x = y := hcon
      exact hx (hxy' ▸ hy)
    · exact ih hxs p hp

lemma combinations2_pairwise :
    ∀ {l : List String}, l.Nodup →
      (combinations2 l).Pairwise (fun p q => ¬ same_unordered p q) := by
  intro l
  induction l with
  | nil => simp [combinations2]
  | cons x xs ih =>
    intro hnd
    obtain ⟨hx, hxs⟩ := List.nodup_cons.mp hnd
    rw [combinations2, List.pairwise_append]
    refine ⟨?_, ih hxs, ?_⟩
    · rw [List.pairwise_map]
      refine List.Pairwise.imp_of_mem ?_ hxs
      intro a b ha hb hne
      rintro (⟨h1, h2⟩ | ⟨h1, h2⟩)
      · exact hne (show a = b from h2.symm)
      · have h1' : x = a := h1
        exact hx (h1' ▸ ha)
    · intro p hp q hq
      obtain ⟨y, hy, hxy⟩ := List.mem_map.mp hp
      obtain ⟨hq1, hq2⟩ := mem_combinations2 hq
      rw [← hxy]
      rintro (⟨h1, h2⟩ | ⟨h1, h2⟩)
      · have h1' : q.1 = x := h1
        exact hx (h1' ▸ hq1)
      · have h2' : q.2 = x := h2
        exact hx (h2' ▸ hq2)

lemma add_major_pairs_pairwise :
    ∀ (cands : List TokenPair) (pairs : List TokenPair),
      pairs.Pairwise (fun p q => ¬ same_unordered p q) →
      (add_major_pairs pairs cands).Pairwise (fun p q => ¬ same_unordered p q) := by
  intro cands
  induction cands with
  | nil => intro pairs h; exact h
  | cons c rest ih =>
    intro pairs h
    obtain ⟨t1, t2⟩ := c
    simp only [add_major_pairs]
    split
    · next hg =>
      refine ih _ ?_
      rw [List.pairwise_append]
      refine ⟨h, List.pairwise_singleton _ _, ?_⟩
      intro q hq p hp
      rw [List.mem_singleton.mp hp]
      rintro (⟨h1, h2⟩ | ⟨h1, h2⟩)
      · have hq' : q = (t1, t2) := Prod.ext_iff.mpr ⟨h1.symm, h2.symm⟩
        exact hg.2.1 (hq' ▸ hq)
      · have hq' : q = (t2, t1) := Prod.ext_iff.mpr ⟨h2.symm, h1.symm⟩
        exact hg.2.2 (hq' ▸ hq)
    · exact ih pairs h

lemma add_major_pairs_mem :
    ∀ (cands : List TokenPair) (pairs : List TokenPair) (p : TokenPair),
      p ∈ add_major_pairs pairs cands →
      p ∈ pairs ∨ (p ∈ cands ∧ p.1 ≠ p.2) := by
  intro cands
  induction cands with
  | nil => intro pairs p hp; exact Or.inl hp
  | cons c rest ih =>
    intro pairs p hp
    obtain ⟨t1, t2⟩ := c
    simp only [add_major_pairs] at hp
    split at hp
    · next hg =>
      rcases ih _ p hp with hmem | ⟨hmem, hne⟩
      · rcases List.mem_append.mp hmem with hmem | hmem
        · exact Or.inl hmem
        · rw [List.mem_singleton.mp hmem]
          exact Or.inr ⟨List.mem_cons_self _ _, hg.1⟩
      · exact Or.inr ⟨List.mem_cons_of_mem _ hmem, hne⟩
    · rcases ih pairs p hp with hmem | ⟨hmem, hne⟩
      · exact Or.inl hmem
      · exact Or.inr ⟨List.mem_cons_of_mem _ hmem, hne⟩

lemma apply_pair_limits_sublist (cap : ℕ) :
    ∀ (pairs : List TokenPair) (count : String → ℕ),
      List.Sublist (apply_pair_limits cap pairs count) pairs := by
  intro pairs
  induction pairs with
  | nil => intro count; simp [apply_pair_limits]
  | cons c rest ih =>
    intro count
    obtain ⟨t1, t2⟩ := c
    simp only [apply_pair_limits]
    split
    · exact List.Sublist.cons₂ _ (ih _)
    · exact List.Sublist.cons _ (ih _)

lemma apply_pair_limits_count (cap : ℕ) (t : String) :
    ∀ (pairs : List TokenPair) (count : String → ℕ),
      (∀ p ∈ pairs, p.1 ≠ p.2) →
      (apply_pair_limits cap pairs count).countP
        (fun p => decide (p.1 = t ∨ p.2 = t)) ≤ cap - count t := by
  intro pairs
  induction pairs with
  | nil => intro count _; simp [apply_pair_limits]
  | cons c rest ih =>
    intro count hne
    obtain ⟨t1, t2⟩ := c
    have hne12 : t1 ≠ t2 := hne (t1, t2) (List.mem_cons_self _ _)
    have hne' : ∀ p ∈ rest, p.1 ≠ p.2 := fun p hp => hne p (List.mem_cons_of_mem _ hp)
    simp only [apply_pair_limits]
    split
    · next hg =>
      rw [List.countP_cons]
      set count' : String → ℕ := fun s =>
        count s + (if s = t1 then 1 else 0) + (if s = t2 then 1 else 0) with hcount'
      have hrec := ih count' hne'
      by_cases ht1 : t1 = t
      · have ht2 : ¬t2 = t := fun h => hne12 (ht1.trans h.symm)
        have hcnt : count' t = count t + 1 := by
          simp only [hcount']
          rw [if_pos ht1.symm, if_neg (show ¬t = t2 from fun h => ht2 h.symm)]
        rw [hcnt] at hrec
        have hpred : (decide ((t1, t2).1 = t ∨ (t1, t2).2 = t)) = true := by
          simp [ht1]
        rw [hpred, if_pos rfl]
        have hlt : count t < cap := ht1 ▸ hg.1
        omega
      · by_cases ht2 : t2 = t
        · have hcnt : count' t = count t + 1 := by
            simp only [hcount']
            rw [if_neg (show ¬t = t1 from fun h => ht1 h.symm), if_pos ht2.symm]
          rw [hcnt] at hrec
          have hpred : (decide ((t1, t2).1 = t ∨ (t1, t2).2 = t)) = true := by
            simp [ht2]
          rw [hpred, if_pos rfl]
          have hlt : count t < cap := ht2 ▸ hg.2
          omega
        · have hcnt : count' t = count t := by
            simp only [hcount']
            rw [if_neg (show ¬t = t1 from fun h => ht1 h.symm),
              if_neg (show ¬t = t2 from fun h => ht2 h.symm)]
            omega
          rw [hcnt] at hrec
          have hpred : (decide ((t1, t2).1 = t ∨ (t1, t2).2 = t)) = false := by
            simp [ht1, ht2]
          rw [hpred, if_neg Bool.false_ne_true]
          omega
    · exact ih count hne'

lemma weth_block_mem {tier : List String} {p : TokenPair}
    (hp : p ∈ (tier.filter (· ≠ "WETH")).map (fun s => (("WETH" : String), s))) :
    weth_tier_pair tier p := by
  obtain ⟨s, hs, hsp⟩ := List.mem_map.mp hp
  obtain ⟨hs_mem, hs_ne⟩ := List.mem_filter.mp hs
  rw [← hsp]
  exact ⟨rfl, by simpa using hs_ne, hs_mem⟩

lemma weth_block_pairwise {tier : List String} (hnd : tier.Nodup) :
    ((tier.filter (· ≠ "WETH")).map (fun s => (("WETH" : String), s))).Pairwise
      (fun p q => ¬ same_unordered p q) := by
  rw [List.pairwise_map]
  have hfil : (tier.filter (· ≠ "WETH")).Nodup := hnd.filter _
  refine List.Pairwise.imp_of_mem ?_ hfil
  intro a b ha hb hne
  rintro (⟨h1, h2⟩ | ⟨h1, h2⟩)
  · exact hne (show a = b from h2.symm)
  · have ha_ne : a ≠ "WETH" := by simpa using (List.mem_filter.mp ha).2
    exact ha_ne (show "WETH" = a from h1).symm

lemma not_same_weth_new {toks tier : List String} {q p : TokenPair}
    (hdisj : ∀ x ∈ tier, x ∉ toks)
    (hq : pair_inv toks q) (hp : weth_tier_pair tier p) : ¬ same_unordered q p := by
  obtain ⟨hqne, hqcase⟩ := hq
  obtain ⟨hp1, hp2ne, hp2⟩ := hp
  rintro (⟨h1, h2⟩ | ⟨h1, h2⟩)
  · rcases hqcase with ⟨hw, hne, hmem⟩ | ⟨hm1, hm2⟩
    · exact hdisj p.2 hp2 (h2.symm ▸ hmem)
    · exact hdisj p.2 hp2 (h2.symm ▸ hm2)
  · rcases hqcase with ⟨hw, hne, hmem⟩ | ⟨hm1, hm2⟩
    · exact hp2ne (h2.trans hw)
    · exact hdisj p.2 hp2 (h2.symm ▸ hm1)

lemma not_same_stable_new {toks tier : List String} {q p : TokenPair}
    (hdisj : ∀ x ∈ tier, x ∉ toks)
    (hq : pair_inv toks q ∨ weth_tier_pair tier q)
    (hp1s : p.1 ∈ stablecoins) (hp2s : p.2 ∈ stablecoins)
    (hp1t : p.1 ∈ tier) (hp2t : p.2 ∈ tier) : ¬ same_unordered q p := by
  have hw : ("WETH" : String) ∉ stablecoins := by decide
  rintro (⟨h1, h2⟩ | ⟨h1, h2⟩)
  · rcases hq with ⟨-, ⟨hq1w, -, -⟩ | ⟨hm1, -⟩⟩ | ⟨hq1w, -, -⟩
    · exact hw ((h1.trans hq1w) ▸ hp1s)
    · exact hdisj p.1 hp1t (h1.symm ▸ hm1)
    · exact hw ((h1.trans hq1w) ▸ hp1s)
  · rcases hq with ⟨-, ⟨hq1w, -, -⟩ | ⟨-, hm2⟩⟩ | ⟨hq1w, -, -⟩
    · exact hw ((h2.trans hq1w) ▸ hp2s)
    · exact hdisj p.1 hp1t (h1.symm ▸ hm2)
    · exact hw ((h2.trans hq1w) ▸ hp2s)

lemma weth_append_spec (tier toks : List String) (pairs : List TokenPair)
    (hinv : ∀ p ∈ pairs, pair_inv toks p)
    (hpw : pairs.Pairwise (fun p q => ¬ same_unordered p q))
    (hnd : tier.Nodup) (hdisj : ∀ x ∈ tier, x ∉ toks) :
    (∀ p ∈ pairs ++ (tier.filter (· ≠ "WETH")).map (fun s => (("WETH" : String), s)),
      pair_inv toks p ∨ weth_tier_pair tier p) ∧
    (pairs ++ (tier.filter (· ≠ "WETH")).map (fun s => (("WETH" : String), s))).Pairwise
      (fun p q => ¬ same_unordered p q) := by
  constructor
  · intro p hp
    rcases List.mem_append.mp hp with hp | hp
    · exact Or.inl (hinv p hp)
    · exact Or.inr (weth_block_mem hp)
  · rw [List.pairwise_append]
    refine ⟨hpw, weth_block_pairwise hnd, ?_⟩
    intro q hq p hp
    exact not_same_weth_new hdisj (hinv q hq) (weth_block_mem hp)

lemma stable_append_spec (tier toks : List String) (pairs : List TokenPair)
    (hmix : ∀ p ∈ pairs, pair_inv toks p ∨ weth_tier_pair tier p)
    (hpw : pairs.Pairwise (fun p q => ¬ same_unordered p q))
    (hdisj : ∀ x ∈ tier, x ∉ toks) :
    (∀ p ∈ pairs ++ combinations2 (stablecoins.filter (· ∈ tier)),
      pair_inv toks p ∨ weth_tier_pair tier p ∨ tier_pair tier p) ∧
    (pairs ++ combinations2 (stablecoins.filter (· ∈ tier))).Pairwise
      (fun p q => ¬ same_unordered p q) := by
  have hnd_st : (stablecoins.filter (· ∈ tier)).Nodup :=
    (show stablecoins.Nodup by decide).filter _
  have hmem_st : ∀ p ∈ combinations2 (stablecoins.filter (· ∈ tier)),
      p.1 ∈ stablecoins ∧ p.2 ∈ stablecoins ∧ p.1 ∈ tier ∧ p.2 ∈ tier ∧ p.1 ≠ p.2 := by
    intro p hp
    obtain ⟨h1, h2⟩ := mem_combinations2 hp
    obtain ⟨h1s, h1t⟩ := List.mem_filter.mp h1
    obtain ⟨h2s, h2t⟩ := List.mem_filter.mp h2
    exact ⟨h1s, h2s, by simpa using h1t, by simpa using h2t, combinations2_ne hnd_st p hp⟩
  constructor
  · intro p hp
    rcases List.mem_append.mp hp with hp | hp
    · rcases hmix p hp with h | h
      · exact Or.inl h
      · exact Or.inr (Or.inl h)
    · obtain ⟨h1s, h2s, h1t, h2t, hne⟩ := hmem_st p hp
      exact Or.inr (Or.inr ⟨hne, h1t, h2t⟩)
  · rw [List.pairwise_append]
    refine ⟨hpw, combinations2_pairwise hnd_st, ?_⟩
    intro q hq p hp
    obtain ⟨h1s, h2s, h1t, h2t, hne⟩ := hmem_st p hp
    exact not_same_stable_new hdisj (hmix q hq) h1s h2s h1t h2t

lemma major_append_spec (tier : List String) (pairs : List TokenPair)
    (Q : TokenPair → Prop) (hmix : ∀ p ∈ pairs, Q p)
    (hpw : pairs.Pairwise (fun p q => ¬ same_unordered p q)) :
    (∀ p ∈ add_major_pairs pairs (combinations2 tier), Q p ∨ tier_pair tier p) ∧
    (add_major_pairs pairs (combinations2 tier)).Pairwise
      (fun p q => ¬ same_unordered p q) := by
  constructor
  · intro p hp
    rcases add_major_pairs_mem _ _ _ hp with h | ⟨hc, hne⟩
    · exact Or.inl (hmix p h)
    · obtain ⟨h1, h2⟩ := mem_combinations2 hc
      exact Or.inr ⟨hne, h1, h2⟩
  · exact add_major_pairs_pairwise _ _ hpw

lemma generate_tier_pairs_spec (rules : PairRules) (weth_ok : Bool)
    (tier toks : List String) (pairs : List TokenPair)
    (hinv : ∀ p ∈ pairs, pair_inv toks p)
    (hpw : pairs.Pairwise (fun p q => ¬ same_unordered p q))
    (hnd : tier.Nodup) (hdisj : ∀ x ∈ tier, x ∉ toks) :
    (∀ p ∈ generate_tier_pairs rules weth_ok tier pairs, pair_inv (toks ++ tier) p) ∧
    (generate_tier_pairs rules weth_ok tier pairs).Pairwise
      (fun p q => ¬ same_unordered p q) := by
  suffices h : (∀ p ∈ generate_tier_pairs rules weth_ok tier pairs,
      pair_inv toks p ∨ weth_tier_pair tier p ∨ tier_pair tier p) ∧
      (generate_tier_pairs rules weth_ok tier pairs).Pairwise
        (fun p q => ¬ same_unordered p q) by
    exact ⟨fun p hp => mixed_to_pair_inv (h.1 p hp), h.2⟩
  simp only [generate_tier_pairs]
  have hstage₁ : (∀ p ∈ (if rules.always_include_weth ∧ weth_ok then
        pairs ++ (tier.filter (· ≠ "WETH")).map (fun s => (("WETH" : String), s))
      else pairs),
      pair_inv toks p ∨ weth_tier_pair tier p) ∧
      (if rules.always_include_weth ∧ weth_ok then
        pairs ++ (tier.filter (· ≠ "WETH")).map (fun s => (("WETH" : String), s))
      else pairs).Pairwise (fun p q => ¬ same_unordered p q) := by
    split
    · exact weth_append_spec tier toks pairs hinv hpw hnd hdisj
    · exact ⟨fun p hp => Or.inl (hinv p hp), hpw⟩
  set p₁ := if rules.always_include_weth ∧ weth_ok then
      pairs ++ (tier.filter (· ≠ "WETH")).map (fun s => (("WETH" : String), s))
    else pairs with hp₁
  have hstage₂ : (∀ p ∈ (if rules.stablecoin_pairs then
        p₁ ++ combinations2 (stablecoins.filter (· ∈ tier)) else p₁),
      pair_inv toks p ∨ weth_tier_pair tier p ∨ tier_pair tier p) ∧
      (if rules.stablecoin_pairs then
        p₁ ++ combinations2 (stablecoins.filter (· ∈ tier)) else p₁).Pairwise
        (fun p q => ¬ same_unordered p q) := by
    split
    · exact stable_append_spec tier toks p₁ hstage₁.1 hstage₁.2 hdisj
    · refine ⟨fun p hp => ?_, hstage₁.2⟩
      rcases hstage₁.1 p hp with h | h
      · exact Or.inl h
      · exact Or.inr (Or.inl h)
  set p₂ := if rules.stablecoin_pairs then
      p₁ ++ combinations2 (stablecoins.filter (· ∈ tier)) else p₁ with hp₂
  split
  · have hmajor := major_append_spec tier p₂
      (fun p => pair_inv toks p ∨ weth_tier_pair tier p ∨ tier_pair tier p)
      hstage₂.1 hstage₂.2
    refine ⟨?_, hmajor.2⟩
    intro p hp
    rcases hmajor.1 p hp with h | h
    · exact h
    · exact Or.inr (Or.inr h)
  · exact hstage₂

/-- C8: for disjoint, duplicate-free priority tiers (the spec's "token
universe partitioned into priority tiers"), the generated pair list
contains no unordered pair twice, and no token appears in more than
`max_pairs_per_token` pairs. -/
theorem claim_C8_pair_generation (rules : PairRules) (token_universe : List String)
    (high_tokens medium_tokens low_tokens : List String) (t : String)
    (hnd_h : high_tokens.Nodup) (hnd_m : medium_tokens.Nodup) (hnd_l : low_tokens.Nodup)
    (hdisj_m : ∀ x ∈ medium_tokens, x ∉ high_tokens)
    (hdisj_lh : ∀ x ∈ low_tokens, x ∉ high_tokens)
    (hdisj_lm : ∀ x ∈ low_tokens, x ∉ medium_tokens) :
    (generate_potential_pairs rules token_universe high_tokens medium_tokens
      low_tokens).Pairwise (fun p q => ¬ same_unordered p q) ∧
    (generate_potential_pairs rules token_universe high_tokens medium_tokens
      low_tokens).countP (fun p => decide (p.1 = t ∨ p.2 = t)) ≤
      rules.max_pairs_per_token := by
  simp only [generate_potential_pairs]
  have hdisj_low : ∀ x ∈ low_tokens, x ∉ ([] ++ high_tokens) ++ medium_tokens := by
    intro x hx
    simp only [List.nil_append, List.mem_append]
    rintro (h | h)
    · exact hdisj_lh x hx h
    · exact hdisj_lm x hx h
  have hs₁ := generate_tier_pairs_spec rules (decide ("WETH" ∈ token_universe))
    high_tokens [] [] (by simp) (by simp) hnd_h (by simp)
  have hs₂ := generate_tier_pairs_spec rules (decide ("WETH" ∈ token_universe))
    medium_tokens ([] ++ high_tokens) _ hs₁.1 hs₁.2 hnd_m (by simpa using hdisj_m)
  have hs₃ := generate_tier_pairs_spec rules (decide ("WETH" ∈ token_universe))
    low_tokens (([] ++ high_tokens) ++ medium_tokens) _ hs₂.1 hs₂.2 hnd_l hdisj_low
  have hne : ∀ p ∈ generate_tier_pairs rules (decide ("WETH" ∈ token_universe)) low_tokens
      (generate_tier_pairs rules (decide ("WETH" ∈ token_universe)) medium_tokens
        (generate_tier_pairs rules (decide ("WETH" ∈ token_universe)) high_tokens [])),
      p.1 ≠ p.2 := fun p hp => (hs₃.1 p hp).1
  constructor
  · exact List.Pairwise.sublist (apply_pair_limits_sublist _ _ _) hs₃.2
  · have hcount := apply_pair_limits_count rules.max_pairs_per_token t _ (fun _ => 0) hne
    simpa using hcount

/-- Witness for C8 at a concrete universe and tiering. -/
theorem claim_C8_witness :
    (generate_potential_pairs ⟨true, true, true, 5⟩ ["WETH", "USDC", "USDT", "DAI"]
      ["WETH", "USDC", "USDT"] ["DAI"] []).Pairwise (fun p q => ¬ same_unordered p q) ∧
    (generate_potential_pairs ⟨true, true, true, 5⟩ ["WETH", "USDC", "USDT", "DAI"]
      ["WETH", "USDC", "USDT"] ["DAI"] []).countP
      (fun p => decide (p.1 = "WETH" ∨ p.2 = "WETH")) ≤ 5 :=
  claim_C8_pair_generation ⟨true, true, true, 5⟩ ["WETH", "USDC", "USDT", "DAI"]
    ["WETH", "USDC", "USDT"] ["DAI"] [] "WETH"
    (by decide) (by decide) (by decide) (by decide) (by decide) (by decide)

end DexesScanner
